import Mathlib

/-!
Shallow embedding of the Secretary-Agent mail-ingestion core
(listener, history reconciler, watch lifecycle, MIME extractor)
and proofs about the properties its specification states.

Sources embedded:
  * `src/service/gmail_client.py`   — `GmailApiClient.list_history_since`
  * `src/app/main.py`               — the push-notification `handler`
  * `src/service/gmail_watch_service.py` — state files, `is_watch_expired`
  * `src/infrastructure/pubsub_listener.py` — ack/nack classification,
    flow-control parsing
  * `src/service/email_service.py`  — `handle_event`, `_parse_payload`
  * `src/service/db_service.py`     — the `DbService` collaborator
-/

namespace SecretaryAgent

/-! ## Python-value primitives

Python truthiness and conversions used by the embedded code.
An absent dictionary entry is `Option.none`; `str(None)` is `"None"`. -/

/-- Truthiness of an optional Python string: `None` and `""` are falsy. -/
def pyTruthy : Option String → Bool
  | none => false
  | some s => s ≠ ""

/-- Python `a or b` on optional strings: returns `a` when truthy, else `b`. -/
def pyOr (a b : Option String) : Option String :=
  if pyTruthy a then a else b

/-- Python `str(x)` applied to an optional string value: `str(None) = "None"`. -/
def pyStr : Option String → String
  | none => "None"
  | some s => s

/-- Python `int(s)` on a string: strips surrounding whitespace, accepts an
optional sign followed by one or more decimal digits; `none` models the
`ValueError` raised on any other input. -/
def pythonInt (s : String) : Option Int :=
  let t := ((s.toList.dropWhile Char.isWhitespace).reverse.dropWhile
      Char.isWhitespace).reverse
  match t with
  | [] => none
  | c :: rest =>
    let signed : Bool × List Char :=
      if c = '-' then (true, rest)
      else if c = '+' then (false, rest)
      else (false, c :: rest)
    if signed.2 ≠ [] ∧ signed.2.all Char.isDigit then
      let n : Nat := signed.2.foldl (fun a d => a * 10 + (d.toNat - 48)) 0
      some (if signed.1 then -(n : Int) else (n : Int))
    else none

/-- Numeric value of a decimal-digit string (the number a history id denotes). -/
def decVal (s : String) : Nat :=
  s.toList.foldl (fun a c => a * 10 + (c.toNat - 48)) 0

/-- Insertion into a Python `set`, modelled as a duplicate-free list in
insertion order: adding an element already present changes nothing. -/
def pySetInsert (s : List String) (x : String) : List String :=
  if x ∈ s then s else s ++ [x]

/-- Python `<` on lists of characters: lexicographic by code point. -/
def pyStrLtList : List Char → List Char → Bool
  | [], [] => false
  | [], _ :: _ => true
  | _ :: _, [] => false
  | a :: as, b :: bs =>
    if a < b then true else if b < a then false else pyStrLtList as bs

/-- Python `s < t` on strings: lexicographic comparison by code point. -/
def pyStrLt (a b : String) : Bool := pyStrLtList a.toList b.toList

/-! ## History reconciler — `GmailApiClient.list_history_since`

A history page set is the sequence of pages the provider returns while the
pagination loop follows `nextPageToken`. Each history record carries an
optional `id` and a list of `messagesAdded` entries, each with an optional
message id (`added.get("message", {}).get("id")` flattened). -/

/-- One `messagesAdded` entry: the id found under `message.id`, if any. -/
structure AddedMsg where
  messageId : Option String
  deriving DecidableEq, Repr

/-- One history record of a page: `h.get("id")` and its added messages. -/
structure HistoryEntry where
  id : Option String
  messagesAdded : List AddedMsg
  deriving DecidableEq, Repr

/-- One page of the `history.list` response. -/
structure HistoryPage where
  history : List HistoryEntry
  deriving DecidableEq, Repr

/-- The inner `for added in h.get("messagesAdded", []) or []` loop body:
a truthy added-message id goes into the deduplicating set. -/
def addedStep (ids : List String) (a : AddedMsg) : List String :=
  match a.messageId with
  | some mid => if mid ≠ "" then pySetInsert ids mid else ids
  | none => ids

/-- Processing of one history record by the loop body of
`list_history_since`: the watermark candidate is `str(h.get("id",
last_history_id))` and replaces the running maximum exactly when it is
greater **as a Python string** (`hid > last_history_id`); every truthy
added-message id goes into the deduplicating set. -/
def processEntry (acc : List String × String) (h : HistoryEntry) :
    List String × String :=
  let hid := h.id.getD acc.2
  let last := if pyStrLt acc.2 hid then hid else acc.2
  let ids := h.messagesAdded.foldl addedStep acc.1
  (ids, last)

/-- `GmailApiClient.list_history_since`: pages through the change log,
aggregating added-message ids into a set and tracking the running maximum
history id under Python string comparison; returns `(list(message_ids),
last_history_id)`, starting from `([], start_history_id)`. -/
def listHistorySince (start : String) (pages : List HistoryPage) :
    List String × String :=
  pages.foldl (fun acc p => p.history.foldl processEntry acc) ([], start)

/-- All history-record ids occurring in a page set (the candidates that can
replace the running watermark). -/
def historyIdsOf (pages : List HistoryPage) : List String :=
  pages.flatMap fun p => p.history.filterMap HistoryEntry.id

/-- The id a `messagesAdded` entry contributes, if truthy. -/
def addedOf (a : AddedMsg) : Option String :=
  match a.messageId with
  | some mid => if mid ≠ "" then some mid else none
  | none => none

/-- All truthy added-message ids occurring in a page set, in order. -/
def addedIdsOf (pages : List HistoryPage) : List String :=
  pages.flatMap fun p =>
    p.history.flatMap fun h => h.messagesAdded.filterMap addedOf

/-! ## Per-account state file

The per-account JSON state file (`<email>.state.json`) is written by two
writers: `GmailWatchService.save_watch_state` (keys `emailAddress`,
`projectId`, `topic`, `watchResponse`, `lastRenewed`) and the push handler
in `src/app/main.py` (keys `emailAddress`, `lastHistoryId`). Each field is
optional: `none` means the key is absent from the JSON object. -/

/-- The `watchResponse` object stored by the watch service: the Gmail
`users.watch` response carries `historyId` and `expiration` (both decimal
strings in the API). -/
structure WatchResponse where
  historyId : Option String
  expiration : Option String
  deriving DecidableEq, Repr

/-- A parsed state file; every key either writer can produce. -/
structure StateFile where
  emailAddress : Option String
  projectId : Option String
  topic : Option String
  watchResponse : Option WatchResponse
  lastRenewed : Option Int
  lastHistoryId : Option String
  deriving DecidableEq, Repr

/-- Python truthiness of the state dict: an empty JSON object is falsy
(`if not state` in `is_watch_expired`). -/
def StateFile.isEmpty (st : StateFile) : Bool :=
  st.emailAddress = none ∧ st.projectId = none ∧ st.topic = none ∧
    st.watchResponse = none ∧ st.lastRenewed = none ∧ st.lastHistoryId = none

/-- `state.get("watchResponse", {}).get("historyId")`. -/
def StateFile.watchHistoryId (st : StateFile) : Option String :=
  st.watchResponse.bind WatchResponse.historyId

/-- `state.get("watchResponse", {}).get("expiration")`. -/
def StateFile.watchExpiration (st : StateFile) : Option String :=
  st.watchResponse.bind WatchResponse.expiration

/-! ## The push handler's reconciliation step — `src/app/main.py`

`stateRead = none` models the `except` branch: missing state file or a
JSON parse failure, which sets `last_history_id = None`. Otherwise the
handler computes `str(state.get("watchResponse", {}).get("historyId") or
state.get("lastHistoryId"))` and falls back to the push-hint history id
only when that string is falsy (`start_hid = last_history_id or
str(history_id)`). -/

/-- The starting history position the handler passes to
`list_history_since`, given the state-file read result and the push-hint
history id. -/
def computeStartHid (stateRead : Option StateFile) (pushHint : String) :
    String :=
  match stateRead with
  | none => pushHint
  | some st =>
    let lastHistoryId := pyStr (pyOr st.watchHistoryId st.lastHistoryId)
    if lastHistoryId ≠ "" then lastHistoryId else pushHint

/-- One reconciliation: compute the start position, scan the history
pages, and write the new state file, which carries **only**
`emailAddress` and `lastHistoryId` (`new_state = {"emailAddress":
email_address, "lastHistoryId": new_last_hid}` fully replaces the file).
Returns the discovered message ids and the written state. -/
def handlerReconcile (stateRead : Option StateFile) (pushHint email : String)
    (pages : List HistoryPage) : List String × StateFile :=
  let start := computeStartHid stateRead pushHint
  let scanned := listHistorySince start pages
  (scanned.1,
    { emailAddress := some email
      projectId := none
      topic := none
      watchResponse := none
      lastRenewed := none
      lastHistoryId := some scanned.2 })

/-! ## Watch lifecycle — `GmailWatchService.is_watch_expired`

`stateRead = none` models a missing or unparseable state file
(`get_watch_state` returns `None`). `now` is `time.time()` in seconds and
the expiration is a millisecond timestamp, compared after the exact
division `int(expiration) / 1000`, modelled over `ℚ`. -/

/-- `GmailWatchService.is_watch_expired`: `True` when the state is missing
or empty, the `expiration` is absent or falsy, `int(expiration)` raises,
or less than 24 hours remain before the expiration. -/
def isWatchExpired (stateRead : Option StateFile) (now : ℚ) : Bool :=
  match stateRead with
  | none => true
  | some st =>
    if st.isEmpty then true
    else
      match st.watchExpiration with
      | none => true
      | some e =>
        if e = "" then true
        else
          match pythonInt e with
          | none => true
          | some n => decide ((n : ℚ) / 1000 - now < 24 * 60 * 60)

/-- The expiration string stored for an account, when the state was
readable and carries one. -/
def storedExpiration (stateRead : Option StateFile) : Option String :=
  match stateRead with
  | none => none
  | some st => st.watchExpiration

/-! ## Listener — `PubSubListener`

Exceptions escaping the per-message handler are classified by
`_is_transient_error`; the callback settles the message exactly once. -/

/-- The `google.api_core` exception classes `_is_transient_error` tests. -/
inductive GaxExc where
  | serviceUnavailable
  | deadlineExceeded
  | internalServerError
  | tooManyRequests
  deriving DecidableEq, Repr

/-- An exception escaping the message handler, as far as the classifier
distinguishes: built-in timeout/connection errors, a retryable
`google.api_core` exception, a `googleapiclient` `HttpError` with its
extracted status (`none` when extracting the status itself failed), or
anything else. -/
inductive PyExc where
  | timeoutError
  | connectionError
  | gax (g : GaxExc)
  | httpError (status : Option Int)
  | other
  deriving DecidableEq, Repr

/-- `PubSubListener._is_transient_error`: timeouts and connection errors,
the four retryable `google.api_core` classes, and `HttpError` with a
truthy status that is ≥ 500 or equal to 429. -/
def isTransientError : PyExc → Bool
  | .timeoutError => true
  | .connectionError => true
  | .gax _ => true
  | .httpError none => false
  | .httpError (some s) => decide (s ≠ 0 ∧ (500 ≤ s ∨ s = 429))
  | .other => false

/-- What the handler invocation did: returned normally or raised. -/
inductive HandlerResult where
  | ok
  | raises (e : PyExc)
  deriving DecidableEq, Repr

/-- The single settlement action taken for a message. -/
inductive AckAction where
  | ack
  | nack
  deriving DecidableEq, Repr

/-- The settlement decision of `PubSubListener._on_message` for a message
that reached the handler-dispatch block: a transient-classified handler
exception nacks and returns, any other handler exception acks and
returns, success (or no configured handler) acks. -/
def onMessageSettle (hasHandler : Bool) (r : HandlerResult) : AckAction :=
  if hasHandler then
    match r with
    | .ok => .ack
    | .raises e => if isTransientError e then .nack else .ack
  else .ack

/-- The flow-control triple `PubSubListener.start` builds: parsed from the
environment with defaults `PUBSUB_MAX_MESSAGES=10`,
`PUBSUB_MAX_BYTES=10485760`, `PUBSUB_MAX_LEASE_DURATION=600`; `none`
models `start()` raising because `int()` failed on one of the values.
No positivity validation is performed. -/
def startFlowControl (envMsgs envBytes envLease : Option String) :
    Option (Int × Int × Int) :=
  match pythonInt (envMsgs.getD "10") with
  | none => none
  | some m =>
    match pythonInt (envBytes.getD "10485760") with
    | none => none
    | some b =>
      match pythonInt (envLease.getD "600") with
      | none => none
      | some l => some (m, b, l)

/-! ## MIME extraction — `EmailService._parse_payload`

`decode_data` is `base64.urlsafe_b64decode(b64).decode("utf-8",
errors="replace")` with `""` returned for falsy input or any decoding
exception. Bytes are modelled as `Nat` values below 256. -/

/-- Value of a base64 alphabet character after the urlsafe translation
step (`-`/`_` map to the same values as `+`/`/`). -/
def b64Val (c : Char) : Option Nat :=
  if 'A' ≤ c ∧ c ≤ 'Z' then some (c.toNat - 65)
  else if 'a' ≤ c ∧ c ≤ 'z' then some (c.toNat - 71)
  else if '0' ≤ c ∧ c ≤ '9' then some (c.toNat + 4)
  else if c = '-' ∨ c = '+' then some 62
  else if c = '_' ∨ c = '/' then some 63
  else none

/-- Reassemble 6-bit groups into bytes; the caller guarantees the length
is not ≡ 1 (mod 4), and a trailing group of two or three sextets yields
one or two bytes. -/
def b64Bytes : List Nat → List Nat
  | a :: b :: c :: d :: rest =>
    (a * 4 + b / 16) :: ((b % 16) * 16 + c / 4) :: ((c % 4) * 64 + d) ::
      b64Bytes rest
  | [a, b] => [a * 4 + b / 16]
  | [a, b, c] => [a * 4 + b / 16, (b % 16) * 16 + c / 4]
  | _ => []

/-- The U+FFFD replacement character used by `errors="replace"`. -/
def replChar : Char := Char.ofNat 0xFFFD

/-- Whether a byte is a UTF-8 continuation byte. -/
def isCont (b : Nat) : Bool := 0x80 ≤ b ∧ b < 0xC0

/-- UTF-8 decoding with replacement of invalid sequences
(`errors="replace"`): well-formed 1–4 byte sequences decode to their code
point; anything else contributes U+FFFD. -/
def utf8Decode : List Nat → List Char
  | [] => []
  | b :: rest =>
    if b < 0x80 then Char.ofNat b :: utf8Decode rest
    else if b < 0xC2 then replChar :: utf8Decode rest
    else if b < 0xE0 then
      match rest with
      | c :: r2 =>
        if isCont c then
          Char.ofNat ((b - 0xC0) * 64 + (c - 0x80)) :: utf8Decode r2
        else replChar :: utf8Decode (c :: r2)
      | [] => [replChar]
    else if b < 0xF0 then
      match rest with
      | c1 :: c2 :: r2 =>
        let code := (b - 0xE0) * 4096 + (c1 - 0x80) * 64 + (c2 - 0x80)
        if isCont c1 ∧ isCont c2 ∧ 0x800 ≤ code ∧
            ¬(0xD800 ≤ code ∧ code < 0xE000) then
          Char.ofNat code :: utf8Decode r2
        else replChar :: utf8Decode (c1 :: c2 :: r2)
      | short => replChar :: utf8Decode short
    else if b < 0xF5 then
      match rest with
      | c1 :: c2 :: c3 :: r2 =>
        let code := (b - 0xF0) * 262144 + (c1 - 0x80) * 4096 +
          (c2 - 0x80) * 64 + (c3 - 0x80)
        if isCont c1 ∧ isCont c2 ∧ isCont c3 ∧ 0x10000 ≤ code ∧
            code ≤ 0x10FFFF then
          Char.ofNat code :: utf8Decode r2
        else replChar :: utf8Decode (c1 :: c2 :: c3 :: r2)
      | short => replChar :: utf8Decode short
    else replChar :: utf8Decode rest

/-- `decode_data` of `_parse_payload`: `""` for falsy input; otherwise
urlsafe base64 decoding (characters outside the alphabet are discarded,
padding must make the length a multiple of four) followed by UTF-8
decoding with replacement; `""` on any decoding error. -/
def decodeData (b64 : Option String) : String :=
  match b64 with
  | none => ""
  | some s =>
    if s = "" then ""
    else
      let kept := s.toList.filter fun c => (b64Val c).isSome ∨ c = '='
      let main := kept.takeWhile (· ≠ '=')
      let pads := kept.drop main.length
      if pads.all (· = '=') ∧ (main.length + pads.length) % 4 = 0 ∧
          main.length % 4 ≠ 1 then
        String.mk (utf8Decode (b64Bytes (main.filterMap b64Val)))
      else ""

/-- A node of the Gmail MIME part tree: `mimeType`, the `body` fields
(`data`, `size`, `attachmentId`, each `none` when absent — an absent
`body` object contributes all three as absent), `filename`, and the child
`parts`. -/
inductive Part where
  | mk (mimeType : Option String) (bodyData : Option String)
      (bodySize : Option Int) (bodyAttachmentId : Option String)
      (filename : Option String) (parts : List Part)

/-- The `mimeType` field of a part. -/
def Part.mimeType : Part → Option String
  | .mk m _ _ _ _ _ => m

/-- The `body.data` field of a part. -/
def Part.bodyData : Part → Option String
  | .mk _ d _ _ _ _ => d

/-- The child `parts` of a part. -/
def Part.parts : Part → List Part
  | .mk _ _ _ _ _ ps => ps

/-- An attachment descriptor collected by the walk. -/
structure Attachment where
  filename : String
  mimeType : Option String
  size : Option Int
  attachmentId : Option String
  data : Option String
  deriving DecidableEq, Repr

/-- The mutable state of the `walk` closure: the two captured bodies and
the collected attachments. -/
structure WalkState where
  bodyText : String
  bodyHtml : String
  attachments : List Attachment
  deriving DecidableEq, Repr

/-- The body-capture step of `walk` for one node (`if data:` block): a
truthy `body.data` is decoded and captured as `body_text` when the part
is `text/plain` and no text body is held yet, else as `body_html` when
the part is `text/html` and no html body is held yet. -/
def bodyStep (st : WalkState) (mime bdata : Option String) : WalkState :=
  match bdata with
  | some d =>
    if d ≠ "" then
      let decoded := decodeData (some d)
      if mime = some "text/plain" ∧ st.bodyText = "" then
        { st with bodyText := decoded }
      else if mime = some "text/html" ∧ st.bodyHtml = "" then
        { st with bodyHtml := decoded }
      else st
    else st
  | none => st

/-- The attachment-collection step of `walk` for one node (`if
filename:` block): a truthy `filename` appends an attachment descriptor
whose `data` field keeps the raw base64 only when truthy. -/
def attachStep (st : WalkState) (mime bdata : Option String)
    (sz : Option Int) (attId fname : Option String) : WalkState :=
  match fname with
  | some f =>
    if f ≠ "" then
      { st with attachments := st.attachments ++
          [{ filename := f
             mimeType := mime
             size := sz
             attachmentId := attId
             data := match bdata with
               | some d => if d ≠ "" then some d else none
               | none => none }] }
    else st
  | none => st

/-- Processing of a single node by `walk`, before recursing into its
children: the body-capture step followed by the attachment step. -/
def walkNode (st : WalkState) (p : Part) : WalkState :=
  match p with
  | .mk mime bdata sz attId fname _parts =>
    attachStep (bodyStep st mime bdata) mime bdata sz attId fname

mutual

/-- `walk(part)`: process the node, then recurse into `part.get("parts")`
in order (depth-first). -/
def walkPart (st : WalkState) : Part → WalkState
  | .mk m d sz a f ps => walkList (walkNode st (.mk m d sz a f ps)) ps

/-- Walking a list of sibling parts left to right. -/
def walkList (st : WalkState) : List Part → WalkState
  | [] => st
  | p :: ps => walkList (walkPart st p) ps

end

/-- `EmailService._parse_payload`: walk the payload tree when the payload
is truthy, starting from empty bodies and no attachments. -/
def parsePayload (payload : Option Part) : WalkState :=
  match payload with
  | none => { bodyText := "", bodyHtml := "", attachments := [] }
  | some p => walkPart { bodyText := "", bodyHtml := "", attachments := [] } p

mutual

/-- Depth-first preorder enumeration of a part tree (the order in which
`walk` visits nodes). -/
def dfsPart : Part → List Part
  | .mk m d sz a f ps => .mk m d sz a f ps :: dfsList ps

/-- Depth-first preorder enumeration of sibling subtrees. -/
def dfsList : List Part → List Part
  | [] => []
  | p :: ps => dfsPart p ++ dfsList ps

end

/-- The body a node with the given `mimeType` and `body.data` fields can
contribute for the MIME type `mime`, counting only truthy data that
decodes to a non-empty string (the walk's `not body_text` / `not
body_html` guards make empty decodes invisible). -/
def bodyCand (mime : String) (pm pd : Option String) : Option String :=
  match pd with
  | some d =>
    if d ≠ "" ∧ pm = some mime then
      let dec := decodeData (some d)
      if dec ≠ "" then some dec else none
    else none
  | none => none

/-- The body a part can contribute for the MIME type `mime`. -/
def partCand (mime : String) (q : Part) : Option String :=
  bodyCand mime q.mimeType q.bodyData

/-- The first non-empty decoded body of the given MIME type in
depth-first order, or `""` when there is none. -/
def firstNonEmptyBody (mime : String) (p : Part) : String :=
  ((dfsPart p).findSome? (partCand mime)).getD ""

/-- The specification's reading of the extractor: the decoded body of the
**first** part of the given MIME type carrying (truthy) body data in
depth-first order, whether or not it decodes to something non-empty. -/
def firstBodySpec (mime : String) (p : Part) : String :=
  ((dfsPart p).findSome? fun q =>
    match q.bodyData with
    | some d =>
      if d ≠ "" ∧ q.mimeType = some mime then some (decodeData (some d))
      else none
    | none => none).getD ""

/-! ## Email service — `EmailService.handle_event` and the `DbService`
collaborator

`fetch` models `gmail_client.fetch_message`; `none` models the raised
exception (the handler logs and returns `None`). The placeholder
`DbService` (src/service/db_service.py) reports nothing as processed and
persists nothing. -/

/-- One header object of the Gmail payload (`{"name": ..., "value": ...}`). -/
structure Header where
  name : String
  value : String
  deriving DecidableEq, Repr

/-- The fields of a Gmail message resource that `_extract_email_details`
reads. `payloadPart = none` models a missing or empty (falsy) `payload`. -/
structure RawMsg where
  id : Option String
  threadId : Option String
  historyId : Option String
  internalDate : Option String
  snippet : Option String
  payloadHeaders : List Header
  payloadPart : Option Part

/-- Header lookup against the dict built by `{h["name"].lower():
h["value"]}`: of several headers with the same lowercased name the last
one wins; a missing key yields `""`. -/
def headerGet (hs : List Header) (k : String) : String :=
  match hs.reverse.find? (fun h => h.name.toLower = k) with
  | some h => h.value
  | none => ""

/-- The normalized record `_extract_email_details` returns (`from` is
spelled `fromAddr` and `to` is `toAddr`). -/
structure EmailRecord where
  id : Option String
  threadId : Option String
  historyId : Option String
  internalDate : Option String
  subject : String
  fromAddr : String
  toAddr : String
  cc : String
  bcc : String
  snippet : String
  bodyText : String
  bodyHtml : String
  attachments : List Attachment

/-- `EmailService._extract_email_details`. -/
def extractEmailDetails (m : RawMsg) : EmailRecord :=
  let parsed := parsePayload m.payloadPart
  { id := m.id
    threadId := m.threadId
    historyId := m.historyId
    internalDate := m.internalDate
    subject := headerGet m.payloadHeaders "subject"
    fromAddr := headerGet m.payloadHeaders "from"
    toAddr := headerGet m.payloadHeaders "to"
    cc := headerGet m.payloadHeaders "cc"
    bcc := headerGet m.payloadHeaders "bcc"
    snippet := m.snippet.getD ""
    bodyText := parsed.bodyText
    bodyHtml := parsed.bodyHtml
    attachments := parsed.attachments }

/-- The inbound event payload fields `handle_event` consults for a
message id: `message_id`, `gmailMessageId`, and `message.id`
(`messageNestedId` is `payload["message"]["id"]` when `payload["message"]`
is a dict). -/
structure EventPayload where
  message_id : Option String
  gmailMessageId : Option String
  messageNestedId : Option String
  deriving DecidableEq, Repr

/-- The message id `handle_event` resolves: the truthy-or chain over the
three fields, with `if not message_id: return` mapping a falsy result to
`none`. -/
def resolveMessageId (p : EventPayload) : Option String :=
  match pyOr (pyOr p.message_id p.gmailMessageId) p.messageNestedId with
  | some s => if s ≠ "" then some s else none
  | none => none

/-- A call made on the database collaborator, recorded with the message
id it concerns. -/
inductive DbCall where
  | hasProcessed (mid : String)
  | markProcessed (mid : String)
  | saveEmail (mid : Option String)
  deriving DecidableEq, Repr

/-- `EmailService.handle_event`: resolve the message id (drop falsy),
fetch the message (drop on failure), extract the record, and — when a
database collaborator with `save_email` is present — call
`save_email(email)`. Returns the record and the sequence of database
calls made. -/
def handleEvent (payload : EventPayload) (fetch : String → Option RawMsg)
    (dbPresent : Bool) : Option EmailRecord × List DbCall :=
  match resolveMessageId payload with
  | none => (none, [])
  | some mid =>
    match fetch mid with
    | none => (none, [])
    | some raw =>
      let email := extractEmailDetails raw
      (some email, if dbPresent then [DbCall.saveEmail email.id] else [])

/-- `DbService.has_processed`: the placeholder always answers `False`. -/
def DbService.has_processed (_mid : String) : Bool := false

/-- `DbService.save_email`: the placeholder performs no persistence — the
stored set of records is unchanged. -/
def DbService.save_email (persisted : List String) (_e : EmailRecord) :
    List String := persisted

/-- `DbService.mark_processed`: the placeholder records nothing. -/
def DbService.mark_processed (persisted : List String) (_mid : String) :
    List String := persisted

/-- The effect of one `handle_event` call on the set of persisted record
ids when the database collaborator is the repository's `DbService`: the
single `save_email` call (made only when a record was extracted) applied
to the current store. -/
def handleEventPersist (persisted : List String) (payload : EventPayload)
    (fetch : String → Option RawMsg) : List String :=
  match resolveMessageId payload with
  | none => persisted
  | some mid =>
    match fetch mid with
    | none => persisted
    | some raw => DbService.save_email persisted (extractEmailDetails raw)

/-! ## Concrete fixtures used by witnesses and counterexamples -/

/-- A state file that exists and parses but carries no fields at all. -/
def emptyStateFile : StateFile :=
  { emailAddress := none, projectId := none, topic := none,
    watchResponse := none, lastRenewed := none, lastHistoryId := none }

/-- A state file whose persisted watermark is `"10"` (as written by the
handler after an earlier reconciliation). -/
def stateWm10 : StateFile :=
  { emailAddress := some "a@example.com", projectId := none, topic := none,
    watchResponse := none, lastRenewed := none, lastHistoryId := some "10" }

/-- A state file whose persisted watermark is `"100"`. -/
def stateWm100 : StateFile :=
  { emailAddress := some "a@example.com", projectId := none, topic := none,
    watchResponse := none, lastRenewed := none, lastHistoryId := some "100" }

/-- A watch-service state whose registration expires 2 hours after the
reference instant 1700000000 (expiration in milliseconds). -/
def stateExp2h : StateFile :=
  { emailAddress := some "a@example.com", projectId := some "proj",
    topic := some "topic",
    watchResponse := some { historyId := some "99",
                            expiration := some "1700007200000" },
    lastRenewed := some 1700000000, lastHistoryId := none }

/-- A watch-service state whose registration expires 30 hours after the
reference instant 1700000000. -/
def stateExp30h : StateFile :=
  { emailAddress := some "a@example.com", projectId := some "proj",
    topic := some "topic",
    watchResponse := some { historyId := some "99",
                            expiration := some "1700108000000" },
    lastRenewed := some 1700000000, lastHistoryId := none }

/-- The two-page history scenario of the specification: page 1 carries
added message `M1` at position `101`, page 2 carries `M1` and `M2` at
position `103`. -/
def twoPageScenario : List HistoryPage :=
  [{ history := [{ id := some "101", messagesAdded := [{ messageId := some "M1" }] }] },
   { history := [{ id := some "103",
                   messagesAdded := [{ messageId := some "M1" },
                                     { messageId := some "M2" }] }] }]

/-- A single history page whose only record has id `"9"` and no added
messages. -/
def pageNine : List HistoryPage :=
  [{ history := [{ id := some "9", messagesAdded := [] }] }]

/-- A raw message fixture with id `m1` and no payload. -/
def rawM1 : RawMsg :=
  { id := some "m1", threadId := none, historyId := none,
    internalDate := none, snippet := none, payloadHeaders := [],
    payloadPart := none }

/-- A fetcher that serves only the fixture message `m1`. -/
def fetchM1 : String → Option RawMsg :=
  fun mid => if mid = "m1" then some rawM1 else none

/-- A MIME tree with two sibling `text/plain` parts: the first carries
data that is discarded by base64 filtering (decodes to the empty string),
the second decodes to `"hi"`. -/
def dupPlainTree : Part :=
  .mk (some "multipart/mixed") none none none none
    [.mk (some "text/plain") (some "!!!") none none none [],
     .mk (some "text/plain") (some "aGk=") none none none []]

/-! # Theorems about the embedded program -/

/-- Claim C10 (confirmed): when the account's state file exists and
parses as JSON but contains neither `watchResponse.historyId` nor
`lastHistoryId`, the handler's starting history position is the literal
string `"None"` (`str` applied to the missing value), not the push-hint
history id. -/
theorem startHid_missing_fields_is_None (st : StateFile) (hint : String)
    (hw : st.watchHistoryId = none) (hl : st.lastHistoryId = none) :
    computeStartHid (some st) hint = "None" := by
  simp [computeStartHid, pyOr, pyStr, pyTruthy, hw, hl]

/-- Witness for `startHid_missing_fields_is_None`: the empty parsed state
file with push hint `"123"`. -/
theorem startHid_missing_fields_is_None_witness :
    computeStartHid (some emptyStateFile) "123" = "None" :=
  startHid_missing_fields_is_None emptyStateFile "123" rfl rfl

/-- Claim C3, counterexample: a state file that exists and parses but
holds no watermark fields makes reconciliation start from `"None"`, not
from the push-hint value `"123"` — refuting "if no persisted watermark
exists, reconciliation starts from the push-hint value". -/
theorem startHid_counterexample :
    computeStartHid (some emptyStateFile) "123" = "None" ∧
      ("None" : String) ≠ "123" := by
  constructor
  · simp [computeStartHid, emptyStateFile, StateFile.watchHistoryId, pyOr,
      pyStr, pyTruthy]
  · decide

/-- Claim C3, amended: a missing or unreadable state file falls back to
the push hint; a parsed state file yields `watchResponse.historyId` when
that is a non-empty string, else `lastHistoryId` when that is a non-empty
string; when both fields are absent the start is the literal string
`"None"` rather than the push hint. -/
theorem startHid_selection (st : StateFile) (hint prev : String) :
    computeStartHid none hint = hint ∧
    (st.watchHistoryId = some prev → prev ≠ "" →
      computeStartHid (some st) hint = prev) ∧
    (st.watchHistoryId = none → st.lastHistoryId = some prev → prev ≠ "" →
      computeStartHid (some st) hint = prev) ∧
    (st.watchHistoryId = none → st.lastHistoryId = none →
      computeStartHid (some st) hint = "None") := by
  refine ⟨rfl, ?_, ?_, ?_⟩
  · intro hw hne
    simp [computeStartHid, pyOr, pyStr, pyTruthy, hw, hne]
  · intro hw hl hne
    simp [computeStartHid, pyOr, pyStr, pyTruthy, hw, hl, hne]
  · intro hw hl
    simp [computeStartHid, pyOr, pyStr, pyTruthy, hw, hl]

/-- Witness for `startHid_selection`: all three hypothesis-bearing cases
at concrete state files. -/
theorem startHid_selection_witness :
    computeStartHid (some stateExp2h) "123" = "99" ∧
    computeStartHid (some stateWm100) "123" = "100" ∧
    computeStartHid (some emptyStateFile) "123" = "None" := by
  refine ⟨?_, ?_, ?_⟩
  · exact (startHid_selection stateExp2h "123" "99").2.1 rfl (by decide)
  · exact (startHid_selection stateWm100 "123" "100").2.2.1 rfl rfl (by decide)
  · exact (startHid_selection emptyStateFile "123" "").2.2.2 rfl rfl

/-- Claim C9 (confirmed): the state file written after a reconciliation
carries only `emailAddress` and `lastHistoryId` — `projectId`, `topic`,
`watchResponse` (with its expiration) and `lastRenewed` are all absent —
and consequently the next watch-expiry check on that state answers
`true`. -/
theorem reconcile_write_drops_watch_state (stateRead : Option StateFile)
    (hint email : String) (pages : List HistoryPage) (now : ℚ) :
    ((handlerReconcile stateRead hint email pages).2).emailAddress = some email ∧
    ((handlerReconcile stateRead hint email pages).2).projectId = none ∧
    ((handlerReconcile stateRead hint email pages).2).topic = none ∧
    ((handlerReconcile stateRead hint email pages).2).watchResponse = none ∧
    ((handlerReconcile stateRead hint email pages).2).lastRenewed = none ∧
    ((handlerReconcile stateRead hint email pages).2).lastHistoryId =
      some (listHistorySince (computeStartHid stateRead hint) pages).2 ∧
    isWatchExpired (some (handlerReconcile stateRead hint email pages).2) now
      = true := by
  simp [handlerReconcile, isWatchExpired, StateFile.isEmpty,
    StateFile.watchExpiration]

/-- Claim C4 (confirmed): a handler exception classified transient
(timeouts, connection failures, the retryable `google.api_core` classes,
HTTP 5xx and 429) is nacked, and any exception classified
non-transient is acked; the settlement is a single action, so a nacked
message is never acked and vice versa. -/
theorem onMessage_settlement_classification (e : PyExc) (s : Int) :
    onMessageSettle true (.raises .timeoutError) = .nack ∧
    onMessageSettle true (.raises .connectionError) = .nack ∧
    (∀ g : GaxExc, onMessageSettle true (.raises (.gax g)) = .nack) ∧
    (500 ≤ s → onMessageSettle true (.raises (.httpError (some s))) = .nack) ∧
    onMessageSettle true (.raises (.httpError (some 429))) = .nack ∧
    (isTransientError e = true → onMessageSettle true (.raises e) = .nack) ∧
    (isTransientError e = false → onMessageSettle true (.raises e) = .ack) := by
  refine ⟨rfl, rfl, fun g => rfl, ?_, by decide, ?_, ?_⟩
  · intro hs
    have hcond : s ≠ 0 ∧ (500 ≤ s ∨ s = 429) := ⟨by omega, Or.inl hs⟩
    simp [onMessageSettle, isTransientError, hcond]
  · intro ht
    simp [onMessageSettle, ht]
  · intro ht
    simp [onMessageSettle, ht]

/-- Witness for `onMessage_settlement_classification`: an injected HTTP
503 fault is nacked; an injected unclassified fault is acked. -/
theorem onMessage_settlement_classification_witness :
    onMessageSettle true (.raises (.httpError (some 503))) = .nack ∧
    onMessageSettle true (.raises .other) = .ack := by
  constructor
  · exact (onMessage_settlement_classification .other 503).2.2.2.1 (by norm_num)
  · exact (onMessage_settlement_classification .other 503).2.2.2.2.2.2 rfl

/-- Claim C7, counterexample: the flow-control value `-5` for the
max-in-flight message count is not a positive integer, yet listener
setup accepts it and builds the flow-control triple — no failure occurs
at construction or at start. -/
theorem flowControl_counterexample :
    startFlowControl (some "-5") none none = some (-5, 10485760, 600) ∧
      ¬(0 < (-5 : Int)) := by
  constructor
  · decide
  · decide

/-- Claim C7, amended: the three flow-control values are optional
environment variables with defaults (10 messages, 10485760 bytes, 600
seconds lease), parsed with `int()` only when `start()` runs; `start`
fails exactly when one of the present values does not parse as an
integer, and no positivity check is performed. -/
theorem flowControl_parse_characterization (e1 e2 e3 : Option String) :
    startFlowControl none none none = some (10, 10485760, 600) ∧
    ((startFlowControl e1 e2 e3).isSome ↔
      ((pythonInt (e1.getD "10")).isSome ∧
        (pythonInt (e2.getD "10485760")).isSome ∧
        (pythonInt (e3.getD "600")).isSome)) := by
  constructor
  · decide
  · cases h1 : pythonInt (e1.getD "10") <;>
      cases h2 : pythonInt (e2.getD "10485760") <;>
      cases h3 : pythonInt (e3.getD "600") <;>
      simp [startFlowControl, h1, h2, h3]

/-- Claim C6 (confirmed): for well-formed expirations (decimal integer
strings), the watch-expiry check answers `true` exactly when the stored
registration is missing entirely (no readable state, or an empty one),
lacks an expiration, or its expiration lies less than 24 hours after the
current time. -/
theorem watch_expiry_characterization (stateRead : Option StateFile)
    (now : ℚ)
    (hwf : ∀ e ∈ storedExpiration stateRead,
      ∃ n : Int, pythonInt e = some n ∧ e ≠ "") :
    isWatchExpired stateRead now = true ↔
      (stateRead = none ∨
       (∃ st, stateRead = some st ∧ st.isEmpty = true) ∨
       storedExpiration stateRead = none ∨
       (∃ e n, storedExpiration stateRead = some e ∧ pythonInt e = some n ∧
         (n : ℚ) / 1000 - now < 24 * 60 * 60)) := by
  cases stateRead with
  | none => simp [isWatchExpired]
  | some st =>
    by_cases he : st.isEmpty
    · simp [isWatchExpired, he]
    · cases hexp : st.watchExpiration with
      | none => simp [isWatchExpired, he, hexp, storedExpiration]
      | some e =>
        obtain ⟨n, hn, hne⟩ := hwf e (by simp [storedExpiration, hexp])
        simp [isWatchExpired, he, hexp, hne, hn, storedExpiration]

/-- Witness for `watch_expiry_characterization`: a registration expiring
2 hours after the reference instant is due for renewal; one expiring 30
hours after it is not. -/
theorem watch_expiry_characterization_witness :
    isWatchExpired (some stateExp2h) 1700000000 = true ∧
    isWatchExpired (some stateExp30h) 1700000000 = false := by
  constructor
  · refine (watch_expiry_characterization (some stateExp2h) 1700000000 ?_).mpr ?_
    · intro e he
      simp [storedExpiration, stateExp2h, StateFile.watchExpiration] at he
      exact ⟨1700007200000, by rw [← he]; decide, by rw [← he]; decide⟩
    · refine Or.inr (Or.inr (Or.inr ⟨"1700007200000", 1700007200000, rfl, by decide, by norm_num⟩))
  · have h := watch_expiry_characterization (some stateExp30h) 1700000000 ?hwf
    case hwf =>
      intro e he
      simp [storedExpiration, stateExp30h, StateFile.watchExpiration] at he
      exact ⟨1700108000000, by rw [← he]; decide, by rw [← he]; decide⟩
    cases hb : isWatchExpired (some stateExp30h) 1700000000 with
    | false => rfl
    | true =>
      exfalso
      rcases h.mp hb with h1 | ⟨st, hst, hemp⟩ | h3 | ⟨e, n, hee, hnn, hlt⟩
      · exact Option.noConfusion h1
      · rw [show st = stateExp30h from (Option.some.injEq _ _).mp hst.symm] at hemp
        exact absurd hemp (by decide)
      · simp [storedExpiration, stateExp30h, StateFile.watchExpiration] at h3
      · have he' : e = "1700108000000" := by
          simpa [storedExpiration, stateExp30h, StateFile.watchExpiration]
            using hee.symm
        rw [he'] at hnn
        rw [show pythonInt "1700108000000" = some 1700108000000 from by decide]
          at hnn
        rw [show n = 1700108000000 from (Option.some.injEq _ _).mp hnn.symm]
          at hlt
        norm_num at hlt

/-! ## Supporting lemmas about the history scan -/

/-- Membership after a Python-set insertion. -/
theorem pySetInsert_mem (s : List String) (x y : String) :
    y ∈ pySetInsert s x ↔ y ∈ s ∨ y = x := by
  unfold pySetInsert
  by_cases hx : x ∈ s <;> simp [hx]
  exact fun hy => hy ▸ hx

/-- Python-set insertion preserves freedom from duplicates. -/
theorem pySetInsert_nodup (s : List String) (x : String) (h : s.Nodup) :
    (pySetInsert s x).Nodup := by
  unfold pySetInsert
  by_cases hx : x ∈ s <;> simp [hx, h, List.Nodup.append, List.nodup_append]

/-- Membership in a fold of Python-set insertions. -/
theorem foldl_pySetInsert_mem (l : List String) (s : List String)
    (y : String) : y ∈ l.foldl pySetInsert s ↔ y ∈ s ∨ y ∈ l := by
  induction l generalizing s with
  | nil => simp
  | cons a t ih =>
    rw [List.foldl_cons, ih, pySetInsert_mem]
    simp [or_assoc]

/-- A fold of Python-set insertions never creates duplicates. -/
theorem foldl_pySetInsert_nodup (l : List String) (s : List String)
    (h : s.Nodup) : (l.foldl pySetInsert s).Nodup := by
  induction l generalizing s with
  | nil => exact h
  | cons a t ih => exact ih _ (pySetInsert_nodup s a h)

/-- The added-message loop of one history record is the fold of
Python-set insertions over the record's truthy added ids. -/
theorem foldl_added_eq (l : List AddedMsg) (ids : List String) :
    l.foldl addedStep ids = (l.filterMap addedOf).foldl pySetInsert ids := by
  induction l generalizing ids with
  | nil => rfl
  | cons a t ih =>
    rw [List.foldl_cons, List.filterMap_cons]
    cases ha : a.messageId with
    | none =>
      simp only [show addedStep ids a = ids from by simp [addedStep, ha],
        show addedOf a = none from by simp [addedOf, ha]]
      exact ih ids
    | some m =>
      by_cases hm : m = ""
      · simp only [show addedStep ids a = ids from by simp [addedStep, ha, hm],
          show addedOf a = none from by simp [addedOf, ha, hm]]
        exact ih ids
      · simp only [show addedStep ids a = pySetInsert ids m from by
            simp [addedStep, ha, hm],
          show addedOf a = some m from by simp [addedOf, ha, hm]]
        exact ih (pySetInsert ids m)

/-- The id-set component of one record-processing step. -/
theorem processEntry_fst (acc : List String × String) (h : HistoryEntry) :
    (processEntry acc h).1 =
      (h.messagesAdded.filterMap addedOf).foldl pySetInsert acc.1 := by
  simp [processEntry, foldl_added_eq]

/-- The id-set component of a fold over history records. -/
theorem foldl_entries_fst (es : List HistoryEntry)
    (acc : List String × String) :
    (es.foldl processEntry acc).1 =
      (es.flatMap fun h => h.messagesAdded.filterMap addedOf).foldl
        pySetInsert acc.1 := by
  induction es generalizing acc with
  | nil => rfl
  | cons h t ih =>
    rw [List.foldl_cons, ih, List.flatMap_cons, List.foldl_append,
      processEntry_fst]

/-- The id list `list_history_since` returns is the fold of Python-set
insertions over every truthy added id of the page set, in order. -/
theorem listHistorySince_fst (start : String) (pages : List HistoryPage) :
    (listHistorySince start pages).1 =
      (addedIdsOf pages).foldl pySetInsert [] := by
  suffices h : ∀ (ps : List HistoryPage) (acc : List String × String),
      (ps.foldl (fun acc p => p.history.foldl processEntry acc) acc).1 =
        (addedIdsOf ps).foldl pySetInsert acc.1 by
    exact h pages ([], start)
  intro ps
  induction ps with
  | nil => intro acc; rfl
  | cons p pt ih =>
    intro acc
    rw [List.foldl_cons, ih]
    simp only [addedIdsOf, List.flatMap_cons, List.foldl_append]
    rw [foldl_entries_fst]

/-- One record-processing step leaves the watermark unchanged or moves it
to the record's own id. -/
theorem processEntry_snd (acc : List String × String) (h : HistoryEntry) :
    (processEntry acc h).2 = acc.2 ∨ h.id = some (processEntry acc h).2 := by
  cases hid : h.id with
  | none => simp [processEntry, hid]
  | some s =>
    by_cases hlt : pyStrLt acc.2 s = true
    · right; simp [processEntry, hid, hlt]
    · left; simp [processEntry, hid, hlt]

/-- After folding over a list of history records, the watermark is the
initial one or one of the record ids. -/
theorem foldl_processEntry_snd (es : List HistoryEntry)
    (acc : List String × String) :
    (es.foldl processEntry acc).2 = acc.2 ∨
      (es.foldl processEntry acc).2 ∈ es.filterMap HistoryEntry.id := by
  induction es generalizing acc with
  | nil => exact Or.inl rfl
  | cons h t ih =>
    rw [List.foldl_cons]
    rcases ih (processEntry acc h) with h1 | h1
    · rcases processEntry_snd acc h with h2 | h2
      · exact Or.inl (h1.trans h2)
      · right
        rw [List.filterMap_cons, h2]
        simp [h1]
    · right
      rw [List.filterMap_cons]
      cases h.id <;> simp [List.mem_cons, h1]

/-- The watermark `list_history_since` returns is the starting one or one
of the history-record ids of the page set. -/
theorem listHistorySince_snd_cases (start : String)
    (pages : List HistoryPage) :
    (listHistorySince start pages).2 = start ∨
      (listHistorySince start pages).2 ∈ historyIdsOf pages := by
  suffices h : ∀ (ps : List HistoryPage) (acc : List String × String),
      (ps.foldl (fun acc p => p.history.foldl processEntry acc) acc).2 = acc.2 ∨
        (ps.foldl (fun acc p => p.history.foldl processEntry acc) acc).2 ∈
          historyIdsOf ps by
    exact h pages ([], start)
  intro ps
  induction ps with
  | nil => intro acc; exact Or.inl rfl
  | cons p pt ih =>
    intro acc
    rw [List.foldl_cons]
    rcases ih (p.history.foldl processEntry acc) with h1 | h1
    · rcases foldl_processEntry_snd p.history acc with h2 | h2
      · exact Or.inl (h1.trans h2)
      · right
        rw [historyIdsOf, List.flatMap_cons, h1]
        exact List.mem_append_left _ h2
    · right
      rw [historyIdsOf, List.flatMap_cons]
      exact List.mem_append_right _ h1

/-- Claim C5 (confirmed): when a message id occurs in the `messagesAdded`
entries of a history page set — once or many times, within one page or
across pages — the id list returned by `list_history_since` contains it
exactly once. -/
theorem history_dedup_exactly_once (start : String)
    (pages : List HistoryPage) (mid : String)
    (hmem : mid ∈ addedIdsOf pages) :
    (listHistorySince start pages).1.count mid = 1 := by
  rw [listHistorySince_fst]
  exact List.count_eq_one_of_mem
    (foldl_pySetInsert_nodup _ _ List.nodup_nil)
    ((foldl_pySetInsert_mem _ _ _).mpr (Or.inr hmem))

/-- Witness for `history_dedup_exactly_once`: `M1` occurs in two separate
added entries of the two-page scenario and is returned exactly once. -/
theorem history_dedup_exactly_once_witness :
    "M1" ∈ addedIdsOf twoPageScenario ∧
      (listHistorySince "100" twoPageScenario).1.count "M1" = 1 :=
  ⟨by decide, history_dedup_exactly_once "100" twoPageScenario "M1" (by decide)⟩

/-- Claim C1, counterexample: with persisted watermark `"10"`, a provider
page whose single record has id `"9"` makes the handler persist
`lastHistoryId = "9"` — the Python string comparison `"9" > "10"` holds —
so the numeric value of the watermark regresses from 10 to 9. -/
theorem watermark_regression_counterexample :
    ((handlerReconcile (some stateWm10) "777" "a@example.com" pageNine).2).lastHistoryId
        = some "9" ∧
      decVal "9" < decVal "10" := by
  constructor
  · decide
  · decide

/-- Claim C1, amended: the persisted watermark never decreases
numerically **provided** every history-record id the provider returns is
numerically at least the stored watermark (the provider's contract);
without that assumption the code's lexicographic string comparison can
regress the numeric watermark. -/
theorem watermark_nondecreasing_under_contract (st : StateFile)
    (hint email prev newWm : String) (pages : List HistoryPage)
    (hw : st.watchHistoryId = none) (hl : st.lastHistoryId = some prev)
    (hne : prev ≠ "")
    (hcontract : ∀ hid ∈ historyIdsOf pages, decVal prev ≤ decVal hid)
    (hres : ((handlerReconcile (some st) hint email pages).2).lastHistoryId
      = some newWm) :
    decVal prev ≤ decVal newWm := by
  have hstart : computeStartHid (some st) hint = prev := by
    simp [computeStartHid, pyOr, pyStr, pyTruthy, hw, hl, hne]
  have hnew : newWm = (listHistorySince (computeStartHid (some st) hint)
      pages).2 := by
    simp [handlerReconcile] at hres
    exact hres.symm
  rcases listHistorySince_snd_cases (computeStartHid (some st) hint) pages
      with h1 | h1
  · rw [hnew, h1, hstart]
  · exact hnew ▸ hcontract _ h1

/-- Witness for `watermark_nondecreasing_under_contract`: the two-page
scenario starting from stored watermark `"100"` satisfies the provider
contract and ends with watermark `"103"`. -/
theorem watermark_nondecreasing_under_contract_witness :
    (∀ hid ∈ historyIdsOf twoPageScenario, decVal "100" ≤ decVal hid) ∧
      decVal "100" ≤ decVal "103" :=
  ⟨by decide,
    watermark_nondecreasing_under_contract stateWm100 "777" "a@example.com"
      "100" "103" twoPageScenario rfl rfl (by decide) (by decide) (by decide)⟩

/-- Claim C2, counterexample: handling a notification for message `m1`
makes exactly one database call — `save_email` — and no call to
`has_processed`: the persistence step never consults `hasProcessed(id)`. -/
theorem handleEvent_never_consults_hasProcessed :
    (handleEvent ⟨some "m1", none, none⟩ fetchM1 true).2 =
        [DbCall.saveEmail (some "m1")] ∧
      DbCall.hasProcessed "m1" ∉
        (handleEvent ⟨some "m1", none, none⟩ fetchM1 true).2 := by
  constructor
  · decide
  · decide

/-- Claim C2, amended: `handle_event` makes no `has_processed` call (the
placeholder would answer `false` anyway) and persists through the
placeholder `save_email`, which is a no-op — so handling the same
notification any number of times leaves the persisted store unchanged,
and in particular a second handling cannot add a second record. -/
theorem handleEvent_replay_persists_nothing (persisted : List String)
    (payload : EventPayload) (fetch : String → Option RawMsg) :
    handleEventPersist (handleEventPersist persisted payload fetch)
        payload fetch = persisted ∧
      (∀ mid, DbCall.hasProcessed mid ∉ (handleEvent payload fetch true).2) ∧
      (∀ mid, DbService.has_processed mid = false) := by
  refine ⟨?_, ?_, fun _ => rfl⟩
  · cases hr : resolveMessageId payload with
    | none => simp [handleEventPersist, hr]
    | some mid =>
      cases hf : fetch mid with
      | none => simp [handleEventPersist, hr, hf]
      | some raw => simp [handleEventPersist, hr, hf, DbService.save_email]
  · intro mid
    cases hr : resolveMessageId payload with
    | none => simp [handleEvent, hr]
    | some m =>
      cases hf : fetch m with
      | none => simp [handleEvent, hr, hf]
      | some raw => simp [handleEvent, hr, hf]

/-! ## Supporting lemmas about the MIME walk -/

/-- `findSome?` on a cons cell. -/
theorem findSome?_cons {α β : Type} (f : α → Option β) (a : α)
    (l : List α) :
    (a :: l).findSome? f =
      match f a with
      | some b => some b
      | none => l.findSome? f := rfl

/-- `findSome?` across an append. -/
theorem findSome?_append {α β : Type} (f : α → Option β) (l1 l2 : List α) :
    (l1 ++ l2).findSome? f =
      match l1.findSome? f with
      | some b => some b
      | none => l2.findSome? f := by
  induction l1 with
  | nil => rfl
  | cons a t ih => cases hfa : f a <;> simp [findSome?_cons, hfa, ih]

/-- An `if` that replaces the empty string by the empty string. -/
theorem ite_empty_self (s : String) : (if s = "" then "" else s) = s := by
  by_cases h : s = "" <;> simp [h]

/-- A body candidate is never the empty string. -/
theorem bodyCand_ne_empty {mime : String} {pm pd : Option String}
    {c : String} (h : bodyCand mime pm pd = some c) : c ≠ "" := by
  cases pd with
  | none => simp [bodyCand] at h
  | some d =>
    simp only [bodyCand] at h
    split_ifs at h with h1 h2
    simp only [Option.some.injEq] at h
    rw [← h]
    exact h2

/-- A candidate found among parts is never the empty string. -/
theorem findSome?_partCand_ne {mime c : String} {l : List Part}
    (h : l.findSome? (partCand mime) = some c) : c ≠ "" := by
  induction l with
  | nil => simp [List.findSome?] at h
  | cons q t ih =>
    rw [findSome?_cons] at h
    cases hq : partCand mime q with
    | none =>
      simp only [hq] at h
      exact ih h
    | some b =>
      simp only [hq, Option.some.injEq] at h
      rw [← h]
      exact bodyCand_ne_empty hq

/-- The attachment step never changes the captured text body. -/
theorem attachStep_bodyText (st : WalkState) (m d : Option String)
    (sz : Option Int) (a f : Option String) :
    (attachStep st m d sz a f).bodyText = st.bodyText := by
  cases f with
  | none => rfl
  | some ff => by_cases hf : ff = "" <;> simp [attachStep, hf]

/-- The attachment step never changes the captured html body. -/
theorem attachStep_bodyHtml (st : WalkState) (m d : Option String)
    (sz : Option Int) (a f : Option String) :
    (attachStep st m d sz a f).bodyHtml = st.bodyHtml := by
  cases f with
  | none => rfl
  | some ff => by_cases hf : ff = "" <;> simp [attachStep, hf]

/-- The body step keeps a non-empty text body, and otherwise captures the
node's non-empty decoded `text/plain` body if it has one. -/
theorem bodyStep_bodyText (st : WalkState) (m d : Option String) :
    (bodyStep st m d).bodyText =
      if st.bodyText = "" then (bodyCand "text/plain" m d).getD ""
      else st.bodyText := by
  cases d with
  | none => by_cases hbt : st.bodyText = "" <;> simp [bodyStep, bodyCand, hbt]
  | some dd =>
    by_cases hdd : dd = ""
    · by_cases hbt : st.bodyText = "" <;>
        simp [bodyStep, bodyCand, hdd, hbt]
    · by_cases hm : m = some "text/plain"
      · by_cases hbt : st.bodyText = ""
        · by_cases hdec : decodeData (some dd) = "" <;>
            simp [bodyStep, bodyCand, hdd, hm, hbt, hdec]
        · have hmh : m ≠ some "text/html" := by rw [hm]; decide
          simp [bodyStep, bodyCand, hdd, hm, hbt, hmh]
      · by_cases hmh : m = some "text/html"
        · by_cases hbh : st.bodyHtml = "" <;>
            by_cases hbt : st.bodyText = "" <;>
            simp [bodyStep, bodyCand, hdd, hm, hmh, hbh, hbt]
        · by_cases hbt : st.bodyText = "" <;>
            simp [bodyStep, bodyCand, hdd, hm, hmh, hbt]

/-- The body step keeps a non-empty html body, and otherwise captures the
node's non-empty decoded `text/html` body if it has one. -/
theorem bodyStep_bodyHtml (st : WalkState) (m d : Option String) :
    (bodyStep st m d).bodyHtml =
      if st.bodyHtml = "" then (bodyCand "text/html" m d).getD ""
      else st.bodyHtml := by
  cases d with
  | none => by_cases hbh : st.bodyHtml = "" <;> simp [bodyStep, bodyCand, hbh]
  | some dd =>
    by_cases hdd : dd = ""
    · by_cases hbh : st.bodyHtml = "" <;>
        simp [bodyStep, bodyCand, hdd, hbh]
    · by_cases hm : m = some "text/html"
      · have hmp : m ≠ some "text/plain" := by rw [hm]; decide
        by_cases hbh : st.bodyHtml = ""
        · by_cases hdec : decodeData (some dd) = "" <;>
            simp [bodyStep, bodyCand, hdd, hm, hmp, hbh, hdec]
        · simp [bodyStep, bodyCand, hdd, hm, hmp, hbh]
      · by_cases hmp : m = some "text/plain"
        · by_cases hbt : st.bodyText = "" <;>
            by_cases hbh : st.bodyHtml = "" <;>
            simp [bodyStep, bodyCand, hdd, hm, hmp, hbt, hbh]
        · by_cases hbh : st.bodyHtml = "" <;>
            simp [bodyStep, bodyCand, hdd, hm, hmp, hbh]

/-- Every part has positive size. -/
theorem Part.one_le_sizeOf (p : Part) : 1 ≤ sizeOf p := by
  cases p with
  | mk m d sz a f ps => simp +arith

/-- Joint characterization of the walk: for both MIME types, walking a
tree (or a sibling list) keeps an already-captured body and otherwise
captures the first non-empty decoded body in depth-first order. -/
theorem walk_first_aux (n : Nat) :
    (∀ p : Part, sizeOf p ≤ n → ∀ st : WalkState,
      ((walkPart st p).bodyText =
        if st.bodyText = "" then
          ((dfsPart p).findSome? (partCand "text/plain")).getD ""
        else st.bodyText) ∧
      ((walkPart st p).bodyHtml =
        if st.bodyHtml = "" then
          ((dfsPart p).findSome? (partCand "text/html")).getD ""
        else st.bodyHtml)) ∧
    (∀ ps : List Part, sizeOf ps ≤ n → ∀ st : WalkState,
      ((walkList st ps).bodyText =
        if st.bodyText = "" then
          ((dfsList ps).findSome? (partCand "text/plain")).getD ""
        else st.bodyText) ∧
      ((walkList st ps).bodyHtml =
        if st.bodyHtml = "" then
          ((dfsList ps).findSome? (partCand "text/html")).getD ""
        else st.bodyHtml)) := by
  induction n with
  | zero =>
    constructor
    · intro p hp
      exfalso
      have := Part.one_le_sizeOf p
      omega
    · intro ps hps
      exfalso
      have hns : 1 ≤ sizeOf ps := by cases ps <;> simp +arith
      omega
  | succ n ihn =>
    obtain ⟨ihP, ihL⟩ := ihn
    constructor
    · intro p hp st
      cases p with
      | mk m d sz a f ps =>
        have hps : sizeOf ps ≤ n := by
          simp +arith at hp
          omega
        have hwn_t : (walkNode st (Part.mk m d sz a f ps)).bodyText =
            if st.bodyText = "" then (bodyCand "text/plain" m d).getD ""
            else st.bodyText := by
          simp only [walkNode]
          rw [attachStep_bodyText, bodyStep_bodyText]
        have hwn_h : (walkNode st (Part.mk m d sz a f ps)).bodyHtml =
            if st.bodyHtml = "" then (bodyCand "text/html" m d).getD ""
            else st.bodyHtml := by
          simp only [walkNode]
          rw [attachStep_bodyHtml, bodyStep_bodyHtml]
        have hrec := ihL ps hps (walkNode st (Part.mk m d sz a f ps))
        have hdfs : dfsPart (Part.mk m d sz a f ps) =
            Part.mk m d sz a f ps :: dfsList ps := rfl
        have hwp : walkPart st (Part.mk m d sz a f ps) =
            walkList (walkNode st (Part.mk m d sz a f ps)) ps := rfl
        constructor
        · rw [hwp, hrec.1, hwn_t, hdfs, findSome?_cons]
          by_cases hbt : st.bodyText = ""
          · simp only [hbt, if_true]
            cases hc : bodyCand "text/plain" m d with
            | none =>
              simp [partCand, Part.mimeType, Part.bodyData, hc]
            | some c =>
              have hcne := bodyCand_ne_empty hc
              simp [partCand, Part.mimeType, Part.bodyData, hc, hcne]
          · simp [hbt]
        · rw [hwp, hrec.2, hwn_h, hdfs, findSome?_cons]
          by_cases hbh : st.bodyHtml = ""
          · simp only [hbh, if_true]
            cases hc : bodyCand "text/html" m d with
            | none =>
              simp [partCand, Part.mimeType, Part.bodyData, hc]
            | some c =>
              have hcne := bodyCand_ne_empty hc
              simp [partCand, Part.mimeType, Part.bodyData, hc, hcne]
          · simp [hbh]
    · intro ps hps st
      cases ps with
      | nil =>
        constructor <;>
          simp [walkList, dfsList, List.findSome?, ite_empty_self]
      | cons p pt =>
        have hsz : sizeOf p ≤ n ∧ sizeOf pt ≤ n := by
          have h1 := Part.one_le_sizeOf p
          simp +arith at hps
          omega
        have ihp := ihP p hsz.1 st
        have ihpt := ihL pt hsz.2 (walkPart st p)
        have hwl : walkList st (p :: pt) = walkList (walkPart st p) pt := rfl
        have hdl : dfsList (p :: pt) = dfsPart p ++ dfsList pt := rfl
        constructor
        · rw [hwl, ihpt.1, ihp.1, hdl, findSome?_append]
          by_cases hbt : st.bodyText = ""
          · simp only [hbt, if_true]
            cases hc : (dfsPart p).findSome? (partCand "text/plain") with
            | none => simp [hc]
            | some c =>
              have hcne : c ≠ "" := findSome?_partCand_ne hc
              simp [hc, hcne]
          · simp [hbt]
        · rw [hwl, ihpt.2, ihp.2, hdl, findSome?_append]
          by_cases hbh : st.bodyHtml = ""
          · simp only [hbh, if_true]
            cases hc : (dfsPart p).findSome? (partCand "text/html") with
            | none => simp [hc]
            | some c =>
              have hcne : c ≠ "" := findSome?_partCand_ne hc
              simp [hc, hcne]
          · simp [hbh]

/-- Claim C8, counterexample: in a tree whose first `text/plain` part
carries data decoding to the empty string and whose second `text/plain`
part decodes to `"hi"`, the extractor returns the **second** part's body
— the later duplicate is not ignored, refuting "body_text is the first
text/plain body encountered". -/
theorem parse_first_body_counterexample :
    (parsePayload (some dupPlainTree)).bodyText = "hi" ∧
      firstBodySpec "text/plain" dupPlainTree = "" ∧
      ("hi" : String) ≠ "" := by
  refine ⟨by decide, by decide, by decide⟩

/-- Claim C8, amended: walking the MIME tree depth-first, `body_text` is
the first `text/plain` body that decodes to a non-empty string (parts
with empty or undecodable bodies are passed over), and `body_html`
likewise for `text/html`; once a non-empty body is captured, all later
parts of that MIME type are ignored. -/
theorem parse_first_nonempty_body (p : Part) :
    (parsePayload (some p)).bodyText = firstNonEmptyBody "text/plain" p ∧
    (parsePayload (some p)).bodyHtml = firstNonEmptyBody "text/html" p := by
  have h := (walk_first_aux (sizeOf p)).1 p (le_refl _)
    { bodyText := "", bodyHtml := "", attachments := [] }
  constructor
  · rw [show parsePayload (some p) =
      walkPart { bodyText := "", bodyHtml := "", attachments := [] } p
      from rfl, h.1]
    simp [firstNonEmptyBody]
  · rw [show parsePayload (some p) =
      walkPart { bodyText := "", bodyHtml := "", attachments := [] } p
      from rfl, h.2]
    simp [firstNonEmptyBody]

/-- Witness for `handleEvent_replay_persists_nothing`: replaying the
`m1` notification over an empty store leaves it empty, and the call
trace holds no `has_processed` call for `m1`. -/
theorem handleEvent_replay_persists_nothing_witness :
    handleEventPersist
        (handleEventPersist [] ⟨some "m1", none, none⟩ fetchM1)
        ⟨some "m1", none, none⟩ fetchM1 = ([] : List String) ∧
      DbCall.hasProcessed "m1" ∉
        (handleEvent ⟨some "m1", none, none⟩ fetchM1 true).2 :=
  ⟨(handleEvent_replay_persists_nothing [] ⟨some "m1", none, none⟩ fetchM1).1,
    (handleEvent_replay_persists_nothing [] ⟨some "m1", none, none⟩
      fetchM1).2.1 "m1"⟩

/-- Witness for `flowControl_parse_characterization`: with no environment
overrides the parse succeeds, on the defaults. -/
theorem flowControl_parse_characterization_witness :
    startFlowControl none none none = some (10, 10485760, 600) :=
  (flowControl_parse_characterization none none none).1

end SecretaryAgent
